import Mathlib

/-!
Verification of the ATLAS PWA client (src/app.js, which also contains the
service-worker script).  The JavaScript is embedded shallowly: pure helpers
become Lean functions over `Nat`/`String`/`List Char`, the DOM/localStorage
state touched by each handler becomes an explicit state record threaded
through the handler, and the service-worker promise chains become values of
a small effect record whose `then`/`catch` combinators mirror JS promise
semantics (a resolved/rejected outcome plus an accumulated log and a
"skipWaiting was called" flag).  `Math.random()*16|0` draws are modelled as
an oracle `Nat → Fin 16` indexed by draw count.  Timestamps (`new Date()`)
and rendering details are outside every claim and are omitted from the
`Message` record.
-/

namespace Atlas

/-! ### Generic JavaScript string helpers -/

/-- Model of `a.startsWith`-style prefix test on character lists, used to
build the substring test below. -/
def leadsWith : List Char → List Char → Bool
  | [], _ => true
  | _ :: _, [] => false
  | a :: as, b :: bs => a == b && leadsWith as bs

/-- Model of JavaScript `hay.includes(needle)`: `needle` occurs as a
contiguous substring of `hay`. -/
def hasSub : List Char → List Char → Bool
  | n, [] => n.isEmpty
  | n, h :: t => leadsWith n (h :: t) || hasSub n t

/-- JavaScript `hay.includes(needle)` on strings. -/
def strIncludes (hay needle : String) : Bool :=
  hasSub needle.data hay.data

/-- Model of JavaScript `String.prototype.trim` (whitespace stripped from
both ends), written at the character-list level. -/
def trimChars (l : List Char) : List Char :=
  ((l.dropWhile Char.isWhitespace).reverse.dropWhile Char.isWhitespace).reverse

/-- JavaScript `s.trim()`. -/
def jsTrim (s : String) : String :=
  String.mk (trimChars s.data)

/-- JavaScript truthiness of a nullable string: `null`/`undefined` and the
empty string are falsy, every other string is truthy. -/
def jsTruthyStr : Option String → Bool
  | none => false
  | some s => !(s == "")

/-- JavaScript `v || d` for a nullable string `v` and default `d`: returns
`v` when it is truthy (present and non-empty), else `d`. -/
def jsOrStr (v : Option String) (d : String) : String :=
  match v with
  | some s => if s = "" then d else s
  | none => d

/-! ### CONFIG (src/app.js lines 5-14) -/

/-- CONFIG.apiEndpoint. -/
def apiEndpoint : String := "https://n8n.srv1194059.hstgr.cloud/webhook/atlas-pwa"

/-- CONFIG.maxFileSize = 10 * 1024 * 1024. -/
def maxFileSize : Nat := 10 * 1024 * 1024

/-- CONFIG.supportedFileTypes.documents. -/
def documentTypes : List String := [".pdf", ".docx", ".txt", ".md"]

/-- CONFIG.supportedFileTypes.images. -/
def imageTypes : List String := [".jpg", ".jpeg", ".png"]

/-- CONFIG.supportedFileTypes.code. -/
def codeTypes : List String :=
  [".js", ".py", ".java", ".cpp", ".c", ".h", ".cs", ".html", ".css", ".json", ".xml"]

/-- The spread-concatenation `[...documents, ...images, ...code]` built in
`handleFileSelect` (src/app.js lines 351-355). -/
def allSupportedTypes : List String := documentTypes ++ imageTypes ++ codeTypes

/-! ### Session management (src/app.js lines 22-39) -/

/-- Hex digit produced by JavaScript `v.toString(16)` for `0 ≤ v < 16`:
`0`-`9` for values below ten, `a`-`f` for the rest. -/
def hexDigit (n : Fin 16) : Char :=
  if n.val < 10 then Char.ofNat ('0'.toNat + n.val)
  else Char.ofNat ('a'.toNat + (n.val - 10))

/-- The transform `(r & 0x3 | 0x8)` applied to a raw draw at a `y` slot of
the UUID template: the result is in `{8, 9, 10, 11}`. -/
def yNibble (r : Fin 16) : Fin 16 := ⟨r.val % 4 + 8, by omega⟩

/-- The template string `'xxxxxxxx-xxxx-4xxx-yxxx-xxxxxxxxxxxx'`
(src/app.js line 27), as its character list. -/
def uuidTemplate : List Char :=
  ['x', 'x', 'x', 'x', 'x', 'x', 'x', 'x', '-',
   'x', 'x', 'x', 'x', '-',
   '4', 'x', 'x', 'x', '-',
   'y', 'x', 'x', 'x', '-',
   'x', 'x', 'x', 'x', 'x', 'x', 'x', 'x', 'x', 'x', 'x', 'x']

/-- The `replace(/[xy]/g, cb)` call of `getOrCreateSessionId`: every `x` is
replaced by a fresh random hex digit, every `y` by the variant-nibble
transform of a fresh draw; other characters are kept.  `k` counts the
`Math.random()` draws consumed so far. -/
def fillTemplate : List Char → (Nat → Fin 16) → Nat → List Char
  | [], _, _ => []
  | c :: cs, rnd, k =>
    if c = 'x' then hexDigit (rnd k) :: fillTemplate cs rnd (k + 1)
    else if c = 'y' then hexDigit (yNibble (rnd k)) :: fillTemplate cs rnd (k + 1)
    else c :: fillTemplate cs rnd k

/-- The freshly generated session identifier. -/
def generateUUID (rnd : Nat → Fin 16) : String :=
  String.mk (fillTemplate uuidTemplate rnd 0)

/-- `getOrCreateSessionId` (src/app.js lines 22-39).  The `atlas_session_id`
storage entry is the `Option String` argument (`none` = absent); the result
is the returned identifier paired with the storage entry afterwards.  The
guard is JavaScript `if (!storedSessionId)`, i.e. truthiness: `null` and the
empty string both trigger regeneration. -/
def getOrCreateSessionId (stored : Option String) (rnd : Nat → Fin 16) :
    String × Option String :=
  if jsTruthyStr stored then (stored.getD "", stored)
  else
    let u := generateUUID rnd
    (u, some u)

/-- Character class for a hex slot of the UUID pattern: a lowercase
hexadecimal digit. -/
def isHexLowerChar (c : Char) : Bool :=
  ('0' ≤ c && c ≤ '9') || ('a' ≤ c && c ≤ 'f')

/-- Character class for the variant slot of the UUID pattern: one of
`8`, `9`, `a`, `b`. -/
def isVariantChar (c : Char) : Bool :=
  c == '8' || c == '9' || c == 'a' || c == 'b'

/-- Walk the UUID template against a candidate string: an `x` slot must hold
a lowercase hex digit, the `y` slot a variant nibble in `{8,9,a,b}`, and
every literal slot (the dashes and the version nibble `4`) must match
exactly. -/
def matchesUUIDv4Aux : List Char → List Char → Bool
  | [], [] => true
  | 'x' :: ts, c :: cs => isHexLowerChar c && matchesUUIDv4Aux ts cs
  | 'y' :: ts, c :: cs => isVariantChar c && matchesUUIDv4Aux ts cs
  | t :: ts, c :: cs => t == c && matchesUUIDv4Aux ts cs
  | _, _ => false

/-- The fixed UUID-v4 character pattern of the spec: 36 characters, dashes
at positions 8/13/18/23, version nibble `4` at position 14, variant nibble
in `{8,9,a,b}` at position 19, lowercase hex everywhere else. -/
def matchesUUIDv4 (s : String) : Bool :=
  matchesUUIDv4Aux uuidTemplate s.data

/-! ### Formatting helper (src/app.js lines 478-484)

`formatFileSize` computes `i = Math.floor(Math.log(bytes)/Math.log(1024))`
and renders `Math.round(bytes / Math.pow(1024, i) * 100) / 100` followed by
`sizes[i]`.  The floor logarithm and the rounding are modelled in exact
arithmetic (`Nat.log 1024` and round-half-up of `100*bytes/1024^i`), which
agrees with the double-precision computation on the inputs the claims are
about.  `sizes[i]` for `i ≥ 4` is JavaScript `undefined`; concatenating it
into the result string yields the text `"undefined"`, modelled by `getD`. -/

/-- The `sizes` array `['Bytes', 'KB', 'MB', 'GB']`. -/
def sizesList : List String := ["Bytes", "KB", "MB", "GB"]

/-- `Math.round(bytes / Math.pow(1024, i) * 100)`: round-half-up of the
exact rational `100 * bytes / 1024 ^ i`, as a count of hundredths. -/
def roundHundredths (bytes i : Nat) : Nat :=
  (200 * bytes + 1024 ^ i) / (2 * 1024 ^ i)

/-- JavaScript number-to-string for the value `n / 100` (`n` a natural
count of hundredths): an integer prints without a decimal point and
trailing fractional zeros are not printed. -/
def hundredthsToString (n : Nat) : String :=
  let ip := n / 100
  let fp := n % 100
  if fp = 0 then toString ip
  else if fp % 10 = 0 then toString ip ++ "." ++ toString (fp / 10)
  else toString ip ++ "." ++ (if fp < 10 then "0" ++ toString fp else toString fp)

/-- `formatFileSize` (src/app.js lines 478-484). -/
def formatFileSize (bytes : Nat) : String :=
  if bytes = 0 then "0 Bytes"
  else
    let i := Nat.log 1024 bytes
    hundredthsToString (roundHundredths bytes i) ++ " " ++ sizesList.getD i "undefined"

/-- Modelled from the claim text of C8: the byte count scaled to the
largest applicable unit among Bytes/KB/MB/GB (base 1024), with two-decimal
rounding.  The unit index is capped at 3 (GB), the largest listed unit. -/
def specUnitIndex (bytes : Nat) : Nat :=
  if bytes < 1024 then 0
  else if bytes < 1024 ^ 2 then 1
  else if bytes < 1024 ^ 3 then 2
  else 3

/-- Modelled from the claim text of C8: `0 Bytes` for zero, otherwise the
count rendered in the largest applicable of the four listed units. -/
def specFormatFileSize (bytes : Nat) : String :=
  if bytes = 0 then "0 Bytes"
  else
    hundredthsToString (roundHundredths bytes (specUnitIndex bytes)) ++ " " ++
      sizesList.getD (specUnitIndex bytes) "GB"

/-! ### File selection (src/app.js lines 335-380) -/

/-- The fields of a selected `File` object that the handlers read:
`name`, `size`, `type`. -/
structure FileMeta where
  name : String
  size : Nat
  type : String
deriving DecidableEq

/-- `file.name.split('.')` — JavaScript split on the literal `'.'`,
at the character-list level.  Always returns at least one piece. -/
def splitOnDot : List Char → List (List Char)
  | [] => [[]]
  | c :: cs =>
    if c = '.' then [] :: splitOnDot cs
    else
      match splitOnDot cs with
      | [] => [[c]]
      | p :: ps => (c :: p) :: ps

/-- `'.' + file.name.split('.').pop().toLowerCase()` (src/app.js line 350).
`pop` takes the last piece of the split. -/
def fileExt (name : String) : String :=
  "." ++ String.mk (((splitOnDot name.data).getLastD []).map Char.toLower)

/-- Modelled from the claim text of C10: the substring of the name after
its last `'.'`; the whole name when it contains no `'.'`. -/
def afterLastDot : List Char → List Char
  | [] => []
  | c :: cs => if '.' ∈ cs then afterLastDot cs else if c = '.' then cs else c :: cs

/-- The alert text for an oversized selection (src/app.js line 344). -/
def oversizeAlert : String :=
  "File too large! Maximum size is " ++ formatFileSize maxFileSize

/-- The alert text for a disallowed extension (src/app.js line 358). -/
def unsupportedAlert (ext : String) : String :=
  "Unsupported file type: " ++ ext ++ "\n\nSupported types:\n" ++
    String.intercalate ", " allSupportedTypes

/-- The pieces of page state touched by `handleFileSelect` and `clearFile`:
the `currentFile` module variable (the Pending Attachment slot), the file
input element's `value`, the preview label text and its hidden flag. -/
structure SelectState where
  currentFile : Option FileMeta
  inputValue : String
  fileNameText : String
  previewHidden : Bool
deriving DecidableEq

/-- `handleFileSelect` (src/app.js lines 335-372).  The argument models
`e.target.files`; the result is the new state paired with the alert raised
during the handler, if any.  Note that the two rejection branches reset the
input element but leave `currentFile` untouched. -/
def handleFileSelect (st : SelectState) (files : List FileMeta) :
    SelectState × Option String :=
  match files with
  | [] => (st, none)
  | f :: _ =>
    if f.size > maxFileSize then
      ({ st with inputValue := "" }, some oversizeAlert)
    else if fileExt f.name ∉ allSupportedTypes then
      ({ st with inputValue := "" }, some (unsupportedAlert (fileExt f.name)))
    else
      ({ currentFile := some f,
         inputValue := "",
         fileNameText := f.name ++ " (" ++ formatFileSize f.size ++ ")",
         previewHidden := false }, none)

/-! ### Messages and the submit protocol (src/app.js lines 189-286) -/

/-- Message roles. -/
inductive Role
  | user
  | assistant
deriving DecidableEq

/-- A chat `Message` object.  The `timestamp: new Date()` field is omitted
(no claim concerns it); `isError` is absent (`false`) unless set. -/
structure Message where
  role : Role
  content : String
  file : Option FileMeta := none
  isError : Bool := false
deriving DecidableEq

/-- A parsed JSON response body, restricted (as the spec's expected
response shape is) to optional string fields `message` and `text`;
`none` models an absent field. -/
structure ApiResponse where
  message : Option String
  text : Option String
deriving DecidableEq

/-- The fixed fallback reply `'I received your message.'`. -/
def fallbackReply : String := "I received your message."

/-- `response.message || response.text || 'I received your message.'`
(src/app.js line 229): JavaScript `||` takes the first truthy value, so a
present-but-empty field falls through. -/
def replyText (r : ApiResponse) : String :=
  jsOrStr r.message (jsOrStr r.text fallbackReply)

/-- Modelled from the claim text of C6: the first PRESENT of the `message`
field or the `text` field, the fixed fallback when neither is present. -/
def firstPresentReply (r : ApiResponse) : String :=
  match r.message with
  | some m => m
  | none =>
    match r.text with
    | some t => t
    | none => fallbackReply

/-- The outcome of the `fetch` in `sendToAPI` as `handleSubmit` observes
it: either the fetch promise rejected (a thrown error carrying an optional
description) or an HTTP response arrived with a status, a status text and
a parsed JSON body. -/
inductive ApiOutcome
  | networkError (msg : Option String)
  | httpResponse (status : Nat) (statusText : String) (body : ApiResponse)
deriving DecidableEq

/-- `response.ok`: the status is in the 2xx range. -/
def responseOk (status : Nat) : Bool :=
  decide (200 ≤ status) && decide (status ≤ 299)

/-- The message of the error thrown by `sendToAPI` on a non-2xx status:
`` `API returned ${response.status}: ${response.statusText}` ``
(src/app.js line 282). -/
def httpErrorText (status : Nat) (statusText : String) : String :=
  "API returned " ++ toString status ++ ": " ++ statusText

/-- The fallback used when the caught error carries no description. -/
def sendFallback : String := "Failed to send message. Please try again."

/-- Content of the error message appended on a failed submit:
`` `❌ Error: ${error.message || 'Failed to send message. Please try again.'}` ``
(src/app.js line 242). -/
def errorContent (errMsg : Option String) : String :=
  "❌ Error: " ++ jsOrStr errMsg sendFallback

/-- Whether `sendToAPI` throws for this outcome (rejected fetch, or
`!response.ok`). -/
def apiFails : ApiOutcome → Bool
  | .networkError _ => true
  | .httpResponse status _ _ => !responseOk status

/-- The description of the error caught by `handleSubmit` for a failing
outcome (`error.message`, which a thrown network error may lack). -/
def failDescription : ApiOutcome → Option String
  | .networkError m => m
  | .httpResponse status statusText _ => some (httpErrorText status statusText)

/-- The state touched by `handleSubmit`: the message input's value, the
Pending Attachment slot, the `messageHistory` array, the rendered chat
transcript (messages passed to `addMessageToChat`, in order), and the
loading flag. -/
structure ChatState where
  inputValue : String
  currentFile : Option FileMeta
  messageHistory : List Message
  chat : List Message
  loading : Bool
deriving DecidableEq

/-- Result of one `handleSubmit` run: the final state, whether the request
was sent, and whether the loading state was ever entered. -/
structure SubmitResult where
  state : ChatState
  requestSent : Bool
  enteredLoading : Bool
deriving DecidableEq

/-- The optimistic user message built on submit (src/app.js lines 202-211). -/
def mkUserMessage (message : String) (file : Option FileMeta) : Message :=
  { role := .user, content := message, file := file }

/-- `handleSubmit` (src/app.js lines 189-252).  The `api` argument is the
outcome of the awaited `sendToAPI` call.  On success the assistant message
is both rendered and pushed onto `messageHistory`; on failure the error
message is only rendered (`addMessageToChat`) — the source has no
`messageHistory.push(errorMessage)` in its catch block. -/
def handleSubmit (st : ChatState) (api : ApiOutcome) : SubmitResult :=
  let message := jsTrim st.inputValue
  if message = "" ∧ st.currentFile = none then
    { state := st, requestSent := false, enteredLoading := false }
  else
    let userMsg := mkUserMessage message st.currentFile
    let st1 : ChatState :=
      { inputValue := "", currentFile := none,
        messageHistory := st.messageHistory ++ [userMsg],
        chat := st.chat ++ [userMsg], loading := true }
    let st2 : ChatState :=
      match api with
      | .httpResponse status statusText body =>
        if responseOk status then
          let aMsg : Message := { role := .assistant, content := replyText body }
          { st1 with chat := st1.chat ++ [aMsg],
                     messageHistory := st1.messageHistory ++ [aMsg] }
        else
          let eMsg : Message :=
            { role := .assistant,
              content := errorContent (some (httpErrorText status statusText)),
              isError := true }
          { st1 with chat := st1.chat ++ [eMsg] }
      | .networkError m =>
        let eMsg : Message :=
          { role := .assistant, content := errorContent m, isError := true }
        { st1 with chat := st1.chat ++ [eMsg] }
    { state := { st2 with loading := false }, requestSent := true, enteredLoading := true }

/-! ### Service worker (second script in src/app.js: sw.js) -/

/-- `CACHE_NAME = 'atlas-v3.0.0'`. -/
def cacheName : String := "atlas-v3.0.0"

/-- `ASSETS_TO_CACHE`. -/
def assetsToCache : List String :=
  ["/", "/index.html", "/style.css", "/app.js", "/manifest.json",
   "/icons/icon-192.png", "/icons/icon-512.png"]

/-- A settled JavaScript promise together with the service-worker side
effects its chain performed: the log lines emitted and whether
`self.skipWaiting()` was called.  `result = .error e` models rejection. -/
structure Eff where
  result : Except String Unit
  skipWaitingCalled : Bool
  log : List String

/-- `p.then(f)`: run `f` only when `p` resolved; a rejection of `p`
propagates past the `then`. -/
def pThen (p : Eff) (f : Unit → Eff) : Eff :=
  match p.result with
  | .ok a =>
    let q := f a
    { result := q.result,
      skipWaitingCalled := p.skipWaitingCalled || q.skipWaitingCalled,
      log := p.log ++ q.log }
  | .error e =>
    { result := .error e, skipWaitingCalled := p.skipWaitingCalled, log := p.log }

/-- `p.catch(h)`: run `h` only when `p` rejected.  The handler's normal
return makes the combined promise RESOLVE. -/
def pCatch (p : Eff) (h : String → Eff) : Eff :=
  match p.result with
  | .ok _ => p
  | .error e =>
    let q := h e
    { result := q.result,
      skipWaitingCalled := p.skipWaitingCalled || q.skipWaitingCalled,
      log := p.log ++ q.log }

/-- A resolved step that only logs. -/
def logEff (m : String) : Eff :=
  { result := .ok (), skipWaitingCalled := false, log := [m] }

/-- `self.skipWaiting()`. -/
def skipWaitingEff : Eff :=
  { result := .ok (), skipWaitingCalled := true, log := [] }

/-- `caches.open(CACHE_NAME)`: resolves (the cache object itself carries no
data the install claims need, so it is modelled as `Unit`). -/
def cachesOpenEff : Eff :=
  { result := .ok (), skipWaitingCalled := false, log := [] }

/-- `cache.addAll(ASSETS_TO_CACHE)` with the given outcome. -/
def addAllEff (outcome : Except String Unit) : Eff :=
  { result := outcome, skipWaitingCalled := false, log := [] }

/-- The promise passed to `event.waitUntil` by the install listener
(sw.js): `caches.open(...).then(cache => { log; return cache.addAll(...) })
.then(() => { log; return self.skipWaiting() })
.catch(error => { console.error('[SW] Installation failed:', error) })`.
The parameter is the outcome of the bulk `addAll` population. -/
def installWaitUntil (addAll : Except String Unit) : Eff :=
  pCatch
    (pThen
      (pThen cachesOpenEff
        (fun _ => pThen (logEff "[SW] Caching app shell") (fun _ => addAllEff addAll)))
      (fun _ =>
        pThen (logEff "[SW] Service worker installed successfully")
          (fun _ => skipWaitingEff)))
    (fun e => logEff ("[SW] Installation failed: " ++ e))

/-- The activate listener's pruning (sw.js): every cache whose name
differs from `CACHE_NAME` is deleted; the result is the list of cache
names that remain afterwards. -/
def activateRemaining (current : String) (existing : List String) : List String :=
  let deleted := existing.filter (fun n => decide (n ≠ current))
  existing.filter (fun n => decide (n ∉ deleted))

/-- How the fetch listener (sw.js) disposes of an intercepted request. -/
inductive FetchDecision
  | passThrough
  | fromCache
  | cacheMissNetwork
deriving DecidableEq

/-- The marker whose presence in the URL makes the worker skip
interception: `request.url.includes('/webhook/')`. -/
def webhookMarker : String := "/webhook/"

/-- The fetch listener (sw.js).  `passThrough` means the handler returned
without calling `respondWith`, so the browser performs the network request
itself; `fromCache` means `respondWith(cachedResponse)` (the network is
never touched); `cacheMissNetwork` means `respondWith(fetch(request)...)`.
`cacheUrls` is the set of request URLs with a cache entry. -/
def fetchDecision (method url : String) (cacheUrls : List String) : FetchDecision :=
  if method ≠ "GET" then .passThrough
  else if strIncludes url webhookMarker then .passThrough
  else if url ∈ cacheUrls then .fromCache
  else .cacheMissNetwork

/-! ### Concrete scenario inputs used by counterexamples and witnesses -/

/-- A page state about to submit the text `"hi"` with no attachment. -/
def st0 : ChatState :=
  { inputValue := "hi", currentFile := none, messageHistory := [], chat := [],
    loading := false }

/-- The backend-stub outcome of the spec's HTTP-500 scenario. -/
def api500 : ApiOutcome :=
  .httpResponse 500 "Internal Server Error" { message := none, text := none }

/-- A small valid attachment already staged in the Pending Attachment slot. -/
def notesFile : FileMeta := { name := "notes.txt", size := 100, type := "text/plain" }

/-- Page state with `notesFile` staged as the Pending Attachment. -/
def priorSelect : SelectState :=
  { currentFile := some notesFile, inputValue := "", fileNameText := "notes.txt",
    previewHidden := false }

/-- Page state with no Pending Attachment staged. -/
def cleanSelect : SelectState :=
  { currentFile := none, inputValue := "", fileNameText := "", previewHidden := true }

/-- An attachment one byte over the 10,485,760-byte ceiling. -/
def bigFile : FileMeta :=
  { name := "big.pdf", size := 10485761, type := "application/pdf" }

/-- A dotless file whose whole name is an allow-listed extension body. -/
def jsFile : FileMeta := { name := "js", size := 3, type := "text/javascript" }

/-- A page state whose input is empty with no attachment. -/
def emptyState : ChatState :=
  { inputValue := "", currentFile := none, messageHistory := [], chat := [],
    loading := false }

/-! ## Theorems -/

/-! ### C9 — submit with empty trimmed text and no attachment is a no-op -/

/-- Claim C9: for every submit where the trimmed input text is empty and no
Pending Attachment is set, the submit is a no-op — no request is sent, no
Message is appended anywhere, and the loading state is never entered. -/
theorem c9_empty_submit_noop (st : ChatState) (api : ApiOutcome)
    (h1 : jsTrim st.inputValue = "") (h2 : st.currentFile = none) :
    (handleSubmit st api).state = st ∧
    (handleSubmit st api).requestSent = false ∧
    (handleSubmit st api).enteredLoading = false := by
  simp [handleSubmit, h1, h2]

/-- Witness for C9 at the concrete empty page state. -/
theorem c9_empty_submit_noop_witness :
    (handleSubmit emptyState (.networkError none)).state = emptyState ∧
    (handleSubmit emptyState (.networkError none)).requestSent = false ∧
    (handleSubmit emptyState (.networkError none)).enteredLoading = false :=
  c9_empty_submit_noop emptyState (.networkError none) (by decide) (by decide)

/-! ### C2 — install failure does NOT abort installation (code bug) -/

/-- Claim C2 (code bug): the spec says a failed bulk cache population
aborts installation (the `waitUntil` promise rejects, so the generation
never activates).  In the code the trailing `.catch` handler merely logs
and returns, which turns the rejection into a RESOLVED promise: with the
`addAll` population failing, the promise handed to `event.waitUntil`
resolves, `skipWaiting` is skipped, and the failure is logged — so the
browser treats the install as successful, contradicting the code's own
log line `'[SW] Installation failed:'`. -/
theorem c2_install_failure_not_aborted :
    (installWaitUntil (.error "TypeError: Failed to fetch")).result = .ok () ∧
    (installWaitUntil (.error "TypeError: Failed to fetch")).skipWaitingCalled = false ∧
    (installWaitUntil (.error "TypeError: Failed to fetch")).log =
      ["[SW] Caching app shell",
       "[SW] Installation failed: TypeError: Failed to fetch"] :=
  ⟨rfl, rfl, rfl⟩

/-! ### C6 — reply-field selection uses truthiness, not presence -/

/-- Counterexample to claim C6 as stated: for the successfully parsed body
`{"message": ""}` the `message` field IS present, so the claim demands the
reply text `""`; the code's `||` chain skips the falsy empty string and
yields the fallback instead. -/
theorem c6_counterexample :
    replyText { message := some "", text := none } = fallbackReply ∧
    firstPresentReply { message := some "", text := none } = "" ∧
    fallbackReply ≠ "" := by decide

/-- Claim C6 as amended: the reply text is the first of the `message` and
`text` fields whose value is present AND non-empty (JavaScript truthiness);
when neither field holds a non-empty string, the fixed fallback is used. -/
theorem c6_amended (r : ApiResponse) :
    (∀ m, r.message = some m → m ≠ "" → replyText r = m) ∧
    ((r.message = none ∨ r.message = some "") →
      ∀ t, r.text = some t → t ≠ "" → replyText r = t) ∧
    ((r.message = none ∨ r.message = some "") →
      (r.text = none ∨ r.text = some "") → replyText r = fallbackReply) := by
  refine ⟨?_, ?_, ?_⟩
  · intro m hm hne
    simp [replyText, jsOrStr, hm, hne]
  · intro hmsg t ht hne
    rcases hmsg with h | h <;> simp [replyText, jsOrStr, h, ht, hne]
  · intro hmsg htxt
    rcases hmsg with h | h <;> rcases htxt with h2 | h2 <;>
      simp [replyText, jsOrStr, h, h2]

/-- Witness for C6 (amended) at a concrete body with a non-empty
`message` field. -/
theorem c6_amended_witness :
    replyText { message := some "hello", text := none } = "hello" :=
  (c6_amended { message := some "hello", text := none }).1 "hello" rfl (by decide)

/-! ### C4 — fetch interception strategy -/

/-- No manifest asset URL contains the webhook path segment. -/
theorem assets_no_webhook :
    ∀ url ∈ assetsToCache, strIncludes url webhookMarker = false := by decide

/-- Claim C4: a GET for a manifest asset with a cache entry is answered
from the cache (the network is never touched); a GET whose URL contains
the webhook path segment is never intercepted (so it always reaches the
network), even when a cache entry for it exists; and non-GET requests are
never intercepted. -/
theorem c4_fetch_strategy :
    (∀ (url : String) (cacheUrls : List String),
        url ∈ assetsToCache → url ∈ cacheUrls →
        fetchDecision "GET" url cacheUrls = .fromCache) ∧
    (∀ (url : String) (cacheUrls : List String),
        strIncludes url webhookMarker = true →
        fetchDecision "GET" url cacheUrls = .passThrough) ∧
    (∀ (method url : String) (cacheUrls : List String), method ≠ "GET" →
        fetchDecision method url cacheUrls = .passThrough) := by
  refine ⟨?_, ?_, ?_⟩
  · intro url cacheUrls hAsset hCache
    have hweb : strIncludes url webhookMarker = false := assets_no_webhook url hAsset
    simp [fetchDecision, hweb, hCache]
  · intro url cacheUrls hweb
    simp [fetchDecision, hweb]
  · intro method url cacheUrls hm
    simp [fetchDecision, hm]

/-- Witness for C4: a cached asset GET, a webhook GET with a same-named
cache entry, and a POST, each at concrete inputs. -/
theorem c4_fetch_strategy_witness :
    fetchDecision "GET" "/app.js" ["/style.css", "/app.js"] = .fromCache ∧
    fetchDecision "GET" apiEndpoint [apiEndpoint] = .passThrough ∧
    fetchDecision "POST" "/app.js" ["/app.js"] = .passThrough :=
  ⟨c4_fetch_strategy.1 "/app.js" ["/style.css", "/app.js"] (by decide) (by decide),
   c4_fetch_strategy.2.1 apiEndpoint [apiEndpoint] (by decide),
   c4_fetch_strategy.2.2 "POST" "/app.js" ["/app.js"] (by decide)⟩

/-! ### C5 — activation prunes every stale cache generation -/

/-- Filtering a duplicate-free list for its member `current` leaves
exactly `[current]`. -/
theorem filterEqSingle (current : String) :
    ∀ l : List String, l.Nodup → current ∈ l →
      l.filter (fun n => decide (n = current)) = [current] := by
  intro l
  induction l with
  | nil => intro _ hm; exact absurd hm (List.not_mem_nil current)
  | cons a l ih =>
    intro hnd hm
    rcases List.nodup_cons.mp hnd with ⟨hal, hl⟩
    by_cases hac : a = current
    · subst hac
      have hnil : l.filter (fun n => decide (n = a)) = [] := by
        rw [List.filter_eq_nil_iff]
        intro x hx
        simp only [decide_eq_true_eq]
        intro h
        exact hal (h ▸ hx)
      simp [List.filter_cons, hnil]
    · have hm' : current ∈ l := by
        rcases List.mem_cons.mp hm with h | h
        · exact absurd h.symm hac
        · exact h
      simp [List.filter_cons, hac, ih hl hm']

/-- Claim C5: on activation every cache generation whose name differs from
the current one is deleted, so exactly the current generation remains; in
particular pruning `{atlas-v1, atlas-v2}` with current `atlas-v2` leaves
only `atlas-v2`. -/
theorem c5_activate_prunes :
    (∀ (current : String) (existing : List String),
        existing.Nodup → current ∈ existing →
        activateRemaining current existing = [current]) ∧
    activateRemaining "atlas-v2" ["atlas-v1", "atlas-v2"] = ["atlas-v2"] := by
  constructor
  · intro current existing hnd hmem
    have hcongr : activateRemaining current existing
        = existing.filter (fun n => decide (n = current)) := by
      unfold activateRemaining
      apply List.filter_congr
      intro x hx
      by_cases hxc : x = current
      · subst hxc
        simp [List.mem_filter]
      · simp [List.mem_filter, hx, hxc]
    rw [hcongr]
    exact filterEqSingle current existing hnd hmem
  · decide

/-- Witness for C5 at a three-generation cache set. -/
theorem c5_activate_prunes_witness :
    activateRemaining "atlas-v2" ["atlas-v0", "atlas-v1", "atlas-v2"] = ["atlas-v2"] :=
  c5_activate_prunes.1 "atlas-v2" ["atlas-v0", "atlas-v1", "atlas-v2"]
    (by decide) (by decide)

/-! ### C1 — the error Message is rendered but never enters messageHistory -/

/-- Counterexample to claim C1 as stated: submitting `"hi"` against the
HTTP-500 stub leaves ZERO `isError` messages in the `messageHistory` array
(the catch block calls `addMessageToChat` but never
`messageHistory.push`), where the claim demands exactly one; the single
error message exists only in the rendered chat transcript. -/
theorem c1_counterexample :
    ((handleSubmit st0 api500).state.messageHistory.filter
        (fun m => m.isError)).length = 0 ∧
    ((handleSubmit st0 api500).state.chat.filter
        (fun m => m.isError)).length = 1 := by decide

/-- Claim C1 as amended: on every failing submit (thrown network error or
non-2xx status), exactly one assistant Message flagged `isError: true` is
created and appended to the RENDERED CHAT TRANSCRIPT — its content embeds
the caught error's description, or the fixed fallback when the error has
none, and contains `"500"` in the HTTP-500 scenario — while the
`messageHistory` array receives only the optimistic user message, not the
error message; the loading state is exited afterwards. -/
theorem c1_amended :
    (∀ (st : ChatState) (api : ApiOutcome),
        ¬(jsTrim st.inputValue = "" ∧ st.currentFile = none) →
        apiFails api = true →
        (handleSubmit st api).state.chat =
          st.chat ++ [mkUserMessage (jsTrim st.inputValue) st.currentFile,
            { role := Role.assistant, content := errorContent (failDescription api),
              file := none, isError := true }] ∧
        (handleSubmit st api).state.messageHistory =
          st.messageHistory ++ [mkUserMessage (jsTrim st.inputValue) st.currentFile] ∧
        (handleSubmit st api).state.loading = false) ∧
    strIncludes (errorContent (failDescription api500)) "500" = true ∧
    errorContent none = "❌ Error: " ++ sendFallback := by
  refine ⟨?_, by decide, rfl⟩
  intro st api hguard hfail
  cases api with
  | networkError m =>
    simp [handleSubmit, hguard, mkUserMessage, failDescription]
  | httpResponse status statusText body =>
    have hok : responseOk status = false := by
      simpa [apiFails] using hfail
    simp [handleSubmit, hguard, hok, mkUserMessage, failDescription]

/-- Witness for C1 (amended) at the concrete HTTP-500 scenario. -/
theorem c1_amended_witness :
    (handleSubmit st0 api500).state.chat =
      st0.chat ++ [mkUserMessage (jsTrim st0.inputValue) st0.currentFile,
        { role := Role.assistant, content := errorContent (failDescription api500),
          file := none, isError := true }] ∧
    (handleSubmit st0 api500).state.messageHistory =
      st0.messageHistory ++ [mkUserMessage (jsTrim st0.inputValue) st0.currentFile] ∧
    (handleSubmit st0 api500).state.loading = false :=
  c1_amended.1 st0 api500 (by decide) (by decide)

/-! ### C3 — rejected selection resets the input but does not clear the slot -/

/-- Counterexample to claim C3 as stated: with `notesFile` already staged,
selecting the oversized `bigFile` is rejected (an alert is raised), yet
afterwards the Pending Attachment slot still holds `notesFile` — the claim
that the slot is cleared so that no Pending Attachment is set is false. -/
theorem c3_counterexample :
    ((handleFileSelect priorSelect [bigFile]).2).isSome = true ∧
    (handleFileSelect priorSelect [bigFile]).1.currentFile = some notesFile :=
  ⟨rfl, rfl⟩

/-- Claim C3 as amended: every failing selection (oversized, or extension
outside the allow-list) is rejected with an alert and the file input is
reset, and the rejected file never enters the Pending Attachment slot —
but the slot itself is left UNCHANGED, so a previously staged attachment
survives; only when no attachment was staged is none staged afterwards. -/
theorem c3_amended (st : SelectState) (f : FileMeta)
    (hrej : f.size > maxFileSize ∨ fileExt f.name ∉ allSupportedTypes) :
    ((handleFileSelect st [f]).2).isSome = true ∧
    (handleFileSelect st [f]).1.inputValue = "" ∧
    (handleFileSelect st [f]).1.currentFile = st.currentFile ∧
    (st.currentFile = none → (handleFileSelect st [f]).1.currentFile = none) := by
  by_cases hsize : f.size > maxFileSize
  · simp [handleFileSelect, hsize]
  · have hext : fileExt f.name ∉ allSupportedTypes := hrej.resolve_left hsize
    simp [handleFileSelect, hsize, hext]

/-- Witness for C3 (amended): the oversized selection on a clean state. -/
theorem c3_amended_witness :
    ((handleFileSelect cleanSelect [bigFile]).2).isSome = true ∧
    (handleFileSelect cleanSelect [bigFile]).1.inputValue = "" ∧
    (handleFileSelect cleanSelect [bigFile]).1.currentFile = cleanSelect.currentFile ∧
    (cleanSelect.currentFile = none →
      (handleFileSelect cleanSelect [bigFile]).1.currentFile = none) :=
  c3_amended cleanSelect bigFile (Or.inl (by decide))

/-! ### C7 — session bootstrap -/

/-- Every raw draw renders as a lowercase hex digit. -/
theorem isHexLowerChar_hexDigit : ∀ n : Fin 16, isHexLowerChar (hexDigit n) = true := by
  decide

/-- Every variant-slot draw renders as one of `8`, `9`, `a`, `b`. -/
theorem isVariantChar_yNibble :
    ∀ n : Fin 16, isVariantChar (hexDigit (yNibble n)) = true := by
  decide

/-- Whatever the random draws, the generated identifier matches the fixed
UUID-v4 character pattern. -/
theorem matchesUUIDv4_generateUUID (rnd : Nat → Fin 16) :
    matchesUUIDv4 (generateUUID rnd) = true := by
  simp [generateUUID, matchesUUIDv4, uuidTemplate, fillTemplate, matchesUUIDv4Aux,
    isHexLowerChar_hexDigit, isVariantChar_yNibble]

/-- Counterexample to claim C7 as stated: with the storage entry holding
the EMPTY string, a stored identifier exists, yet the bootstrap does not
return it unchanged — JavaScript `if (!storedSessionId)` treats the falsy
empty string like an absent entry, regenerates, and overwrites it. -/
theorem c7_counterexample :
    (getOrCreateSessionId (some "") (fun _ => 0)).1 ≠ "" ∧
    (getOrCreateSessionId (some "") (fun _ => 0)).2 ≠ some "" := by decide

/-- Claim C7 as amended: when no identifier is stored, a fresh identifier
matching the UUID-v4 character pattern (version nibble `4`, variant nibble
in `{8,9,a,b}`) is persisted and returned; when a NON-EMPTY identifier is
stored, that same identifier is returned with the storage entry unchanged
(a stored empty string is treated as absent and overwritten). -/
theorem c7_amended :
    (∀ rnd : Nat → Fin 16,
        matchesUUIDv4 (getOrCreateSessionId none rnd).1 = true ∧
        (getOrCreateSessionId none rnd).2 = some (getOrCreateSessionId none rnd).1) ∧
    (∀ (s : String) (rnd : Nat → Fin 16), s ≠ "" →
        getOrCreateSessionId (some s) rnd = (s, some s)) := by
  constructor
  · intro rnd
    constructor
    · simpa [getOrCreateSessionId, jsTruthyStr] using matchesUUIDv4_generateUUID rnd
    · simp [getOrCreateSessionId, jsTruthyStr]
  · intro s rnd hs
    simp [getOrCreateSessionId, jsTruthyStr, hs]

/-- Witness for C7 (amended): a concrete non-empty stored identifier is
returned unchanged. -/
theorem c7_amended_witness :
    getOrCreateSessionId (some "abc123") (fun _ => 0) = ("abc123", some "abc123") :=
  c7_amended.2 "abc123" (fun _ => 0) (by decide)

/-! ### C8 — byte-count formatting -/

/-- Counterexample to claim C8 as stated: the claim covers EVERY
non-negative byte count, but for `2 * 1024^4` bytes the computed unit
index is 4, one past the end of the `['Bytes','KB','MB','GB']` array, so
JavaScript renders the unit as `undefined` and the result is
`"2 undefined"` instead of the largest-applicable-unit rendering
`"2048 GB"`. -/
theorem c8_counterexample :
    formatFileSize 2199023255552 = "2 undefined" ∧
    specFormatFileSize 2199023255552 = "2048 GB" ∧
    formatFileSize 2199023255552 ≠ specFormatFileSize 2199023255552 := by
  have hlog : Nat.log 1024 2199023255552 = 4 :=
    Nat.log_eq_of_pow_le_of_lt_pow (by norm_num) (by norm_num)
  refine ⟨?_, by decide, ?_⟩
  · simp only [formatFileSize, hlog]
    decide
  · simp only [formatFileSize, hlog]
    decide

/-- Claim C8 as amended: `0` formats as `"0 Bytes"`; every positive count
BELOW `1024^4` is scaled to the largest applicable unit among
Bytes/KB/MB/GB (base 1024) with two-decimal rounding — in particular
`1536 ↦ "1.5 KB"` and `10485760 ↦ "10 MB"` — while counts of `1024^4` and
above fall past the end of the unit table and render with the unit text
`undefined`. -/
theorem c8_amended :
    formatFileSize 0 = "0 Bytes" ∧
    formatFileSize 1536 = "1.5 KB" ∧
    formatFileSize 10485760 = "10 MB" ∧
    (∀ bytes : Nat, 0 < bytes → bytes < 1024 ^ 4 →
        formatFileSize bytes = specFormatFileSize bytes) := by
  have hlog1536 : Nat.log 1024 1536 = 1 :=
    Nat.log_eq_of_pow_le_of_lt_pow (by norm_num) (by norm_num)
  have hlog10M : Nat.log 1024 10485760 = 2 :=
    Nat.log_eq_of_pow_le_of_lt_pow (by norm_num) (by norm_num)
  refine ⟨by decide, ?_, ?_, ?_⟩
  · simp only [formatFileSize, hlog1536]
    decide
  · simp only [formatFileSize, hlog10M]
    decide
  · intro bytes h0 h4
    have hb0 : ¬ bytes = 0 := by omega
    have h4' : bytes < 1099511627776 := by norm_num at h4; exact h4
    rcases Nat.lt_or_ge bytes 1024 with h1 | h1
    · have hlog : Nat.log 1024 bytes = 0 :=
        Nat.log_eq_of_pow_le_of_lt_pow (by simpa using h0) (by simpa using h1)
      simp [formatFileSize, specFormatFileSize, specUnitIndex, sizesList, hlog, hb0, h1]
    · have hn1 : ¬ bytes < 1024 := by omega
      rcases Nat.lt_or_ge bytes 1048576 with h2 | h2
      · have hlog : Nat.log 1024 bytes = 1 :=
          Nat.log_eq_of_pow_le_of_lt_pow (by norm_num; omega) (by norm_num; omega)
        simp [formatFileSize, specFormatFileSize, specUnitIndex, sizesList, hlog,
          hb0, hn1, h2]
      · have hn2 : ¬ bytes < 1048576 := by omega
        rcases Nat.lt_or_ge bytes 1073741824 with h3 | h3
        · have hlog : Nat.log 1024 bytes = 2 :=
            Nat.log_eq_of_pow_le_of_lt_pow (by norm_num; omega) (by norm_num; omega)
          simp [formatFileSize, specFormatFileSize, specUnitIndex, sizesList, hlog,
            hb0, hn1, hn2, h3]
        · have hn3 : ¬ bytes < 1073741824 := by omega
          have hlog : Nat.log 1024 bytes = 3 :=
            Nat.log_eq_of_pow_le_of_lt_pow (by norm_num; omega) (by norm_num; omega)
          simp [formatFileSize, specFormatFileSize, specUnitIndex, sizesList, hlog,
            hb0, hn1, hn2, hn3]

/-- Witness for C8 (amended) at a concrete in-range count. -/
theorem c8_amended_witness :
    formatFileSize 1048575 = specFormatFileSize 1048575 :=
  c8_amended.2.2.2 1048575 (by norm_num) (by norm_num)

/-! ### C10 — the extension taken from the last dot-separated piece -/

/-- The split always produces at least one piece (as JavaScript
`split` does). -/
theorem splitOnDot_ne_nil : ∀ l : List Char, splitOnDot l ≠ [] := by
  intro l
  cases l with
  | nil => simp [splitOnDot]
  | cons c cs =>
    by_cases hc : c = '.'
    · simp [splitOnDot, hc]
    · simp only [splitOnDot, hc, if_false]
      cases splitOnDot cs <;> simp

/-- Splitting a dotless name yields the whole name as the only piece. -/
theorem splitOnDot_no_dot : ∀ l : List Char, '.' ∉ l → splitOnDot l = [l] := by
  intro l
  induction l with
  | nil => intro _; rfl
  | cons c cs ih =>
    intro h
    have hc : ¬ c = '.' := fun hcc => h (hcc ▸ List.mem_cons_self c cs)
    have hcs : '.' ∉ cs := fun hmem => h (List.mem_cons_of_mem c hmem)
    simp [splitOnDot, hc, ih hcs]

/-- A name containing a dot splits into at least two pieces. -/
theorem splitOnDot_two_pieces :
    ∀ l : List Char, '.' ∈ l → 2 ≤ (splitOnDot l).length := by
  intro l
  induction l with
  | nil => intro h; exact absurd h (List.not_mem_nil '.')
  | cons c cs ih =>
    intro h
    by_cases hc : c = '.'
    · subst hc
      have h1 : 1 ≤ (splitOnDot cs).length :=
        List.length_pos.mpr (splitOnDot_ne_nil cs)
      have hsplit : splitOnDot ('.' :: cs) = [] :: splitOnDot cs := by
        simp [splitOnDot]
      rw [hsplit, List.length_cons]
      omega
    · have hcs : '.' ∈ cs := by
        rcases List.mem_cons.mp h with h1 | h1
        · exact absurd h1.symm hc
        · exact h1
      have h2 := ih hcs
      rcases hsp : splitOnDot cs with _ | ⟨p, ps⟩
      · exact absurd hsp (splitOnDot_ne_nil cs)
      · have hsplit : splitOnDot (c :: cs) = (c :: p) :: ps := by
          simp [splitOnDot, hc, hsp]
        rw [hsplit, List.length_cons]
        rw [hsp, List.length_cons] at h2
        omega

/-- A dotless name is its own substring-after-the-last-dot. -/
theorem afterLastDot_no_dot : ∀ l : List Char, '.' ∉ l → afterLastDot l = l := by
  intro l
  induction l with
  | nil => intro _; rfl
  | cons c cs ih =>
    intro h
    have hc : ¬ c = '.' := fun hcc => h (hcc ▸ List.mem_cons_self c cs)
    have hcs : '.' ∉ cs := fun hmem => h (List.mem_cons_of_mem c hmem)
    simp [afterLastDot, hc, hcs]

/-- The last piece of the dot-split is exactly the substring after the
last dot. -/
theorem getLastD_splitOnDot :
    ∀ l : List Char, (splitOnDot l).getLastD [] = afterLastDot l := by
  intro l
  induction l with
  | nil => rfl
  | cons c cs ih =>
    by_cases hc : c = '.'
    · subst hc
      have hsplit : splitOnDot ('.' :: cs) = [] :: splitOnDot cs := by
        simp [splitOnDot]
      rw [hsplit, List.getLastD_cons, ih]
      by_cases hcs : '.' ∈ cs
      · simp [afterLastDot, hcs]
      · simp [afterLastDot, hcs, afterLastDot_no_dot cs hcs]
    · by_cases hcs : '.' ∈ cs
      · have h2 := splitOnDot_two_pieces cs hcs
        rcases hsp : splitOnDot cs with _ | ⟨p, ps⟩
        · exact absurd hsp (splitOnDot_ne_nil cs)
        · rcases ps with _ | ⟨q, qs⟩
          · rw [hsp] at h2; simp at h2
          · have hsplit : splitOnDot (c :: cs) = (c :: p) :: q :: qs := by
              simp [splitOnDot, hc, hsp]
            have ihx := ih
            rw [hsp, List.getLastD_cons, List.getLastD_cons] at ihx
            rw [hsplit, List.getLastD_cons, List.getLastD_cons, ihx]
            simp [afterLastDot, hcs]
      · have hsplit : splitOnDot (c :: cs) = [c :: cs] := by
          simp [splitOnDot, hc, splitOnDot_no_dot cs hcs]
        rw [hsplit]
        simp [List.getLastD_cons, afterLastDot, hcs, hc]

/-- Claim C10: the extension checked against the allow-list is `'.'` plus
the lowercased substring after the last `'.'` of the file name; for a
dotless name this is `'.'` plus the entire lowercased name, so a dotless
file whose whole name coincides with an allow-listed extension body is
accepted (size permitting) and every other dotless file is rejected. -/
theorem c10_extension_rule :
    (∀ name : String,
        fileExt name = "." ++ String.mk ((afterLastDot name.data).map Char.toLower)) ∧
    (∀ (st : SelectState) (f : FileMeta), '.' ∉ f.name.data → f.size ≤ maxFileSize →
        (((handleFileSelect st [f]).2 = none) ↔
          ("." ++ String.mk (f.name.data.map Char.toLower)) ∈ allSupportedTypes) ∧
        (("." ++ String.mk (f.name.data.map Char.toLower)) ∈ allSupportedTypes →
          (handleFileSelect st [f]).1.currentFile = some f)) := by
  have hgen : ∀ name : String,
      fileExt name = "." ++ String.mk ((afterLastDot name.data).map Char.toLower) := by
    intro name
    rw [fileExt, getLastD_splitOnDot]
  refine ⟨hgen, ?_⟩
  intro st f hdot hsize
  have hext : fileExt f.name = "." ++ String.mk (f.name.data.map Char.toLower) := by
    rw [hgen, afterLastDot_no_dot f.name.data hdot]
  have hnotbig : ¬ f.size > maxFileSize := by omega
  by_cases hmem : fileExt f.name ∈ allSupportedTypes
  · have hmem' : ("." ++ String.mk (f.name.data.map Char.toLower)) ∈ allSupportedTypes :=
      hext ▸ hmem
    simp [handleFileSelect, hnotbig, hmem, hmem']
  · have hmem' : ("." ++ String.mk (f.name.data.map Char.toLower)) ∉ allSupportedTypes :=
      hext ▸ hmem
    simp [handleFileSelect, hnotbig, hmem, hmem']

/-- Witness for C10: the dotless file named exactly `js` is accepted into
the Pending Attachment slot. -/
theorem c10_extension_rule_witness :
    (handleFileSelect cleanSelect [jsFile]).1.currentFile = some jsFile :=
  (c10_extension_rule.2 cleanSelect jsFile (by decide) (by decide)).2 (by decide)

end Atlas
